import Mathlib

/-!
Shallow embedding of the concurrent streaming pipeline of
`interpreter-verify-ru` (src/pipeline.py, src/transcription/whisper_engine.py,
src/translation/ollama_engine.py) and proofs about its spec.

Machine floats are modelled as rationals (`ℚ`); `numpy` float arrays as
`List ℚ`.  Effects that depend on the outside world (the Whisper model, the
Ollama HTTP endpoint, the capture device, wall-clock time) are passed in as
explicit oracle parameters, so every definition is executable.
-/

namespace InterpreterVerifyRu

/-- An audio chunk: mono float samples (numpy float32 array in the source). -/
abbrev Chunk := List ℚ

/-- `TranscriptSegment` from src/transcription/whisper_engine.py. -/
structure TranscriptSegment where
  text : String
  language : String
  language_confidence : ℚ
  start_time : ℚ
  end_time : ℚ
  transcription_time : ℚ
  deriving Repr, DecidableEq

/-- `TranslationResult` from src/translation/ollama_engine.py. -/
structure TranslationResult where
  source_text : String
  translated_text : String
  source_language : String
  target_language : String
  translation_time : ℚ
  model : String
  deriving Repr, DecidableEq

/-- `PipelineItem` from src/pipeline.py.  `pharma_flags` defaults to `[]` and
`timestamp` is set from the wall clock in `__post_init__`; both are carried
but unused by the claims. -/
structure PipelineItem where
  transcript : TranscriptSegment
  translation : Option TranslationResult
  pharma_flags : List String := []
  timestamp : ℚ := 0
  deriving Repr, DecidableEq

/-- The `self._stats` dict of `Pipeline.__init__` (src/pipeline.py lines
88-95), guarded by `self._stats_lock` in the source. -/
structure Stats where
  chunks_captured : ℕ
  chunks_transcribed : ℕ
  chunks_translated : ℕ
  chunks_dropped : ℕ
  total_whisper_time : ℚ
  total_translate_time : ℚ
  deriving Repr, DecidableEq

/-- The all-zero initial statistics dict. -/
def Stats.init : Stats :=
  ⟨0, 0, 0, 0, 0, 0⟩

/-!
## Bounded queue with drop-oldest

`queue.Queue(maxsize=cap)` used through the
`put_nowait` / on-`Full` `get_nowait`-then-`put_nowait` pattern that both the
audio producer (pipeline.py lines 193-203) and the whisper worker (lines
223-231) use.  A `queue.Queue` is full iff `0 < maxsize ≤ qsize()`
(`maxsize <= 0` means unbounded), and with no concurrent consumer the whole
pattern is the sequential function below.  The returned flag records whether
an eviction happened (the `except queue.Full` path that succeeded).
-/

/-- One `put_nowait`; on `queue.Full`, `get_nowait()` (drop oldest) then
`put_nowait` again.  The `except queue.Empty: pass` arm (queue full yet
empty) is unreachable for `cap ≥ 1` but is embedded faithfully: the new item
is then lost. -/
def dropOldestPush (cap : ℕ) (q : List α) (x : α) : List α × Bool :=
  if cap = 0 ∨ q.length < cap then (q ++ [x], false)
  else
    match q with
    | [] => (q, false)
    | _ :: rest => (rest ++ [x], true)

/-- The audio producer's enqueue (pipeline.py lines 193-203): a drop-oldest
push that increments the `chunks_dropped` counter when an eviction
occurred.  State is (queue contents, dropped counter). -/
def producerEnqueue (cap : ℕ) (qd : List α × ℕ) (x : α) : List α × ℕ :=
  match dropOldestPush cap qd.1 x with
  | (q, true) => (q, qd.2 + 1)
  | (q, false) => (q, qd.2)

/-- N sequential producer enqueues with no concurrent pops. -/
def producerEnqueueAll (cap : ℕ) (qd : List α × ℕ) (xs : List α) : List α × ℕ :=
  xs.foldl (producerEnqueue cap) qd

/-!
## Audio producer (pipeline.py lines 170-203)
-/

/-- Squared root-mean-square energy of a chunk.  The source computes
`rms = np.sqrt(np.mean(audio ** 2))` and compares `rms < t`; since both
sides are nonnegative, `rms < t` is equivalent to `rmsSq audio < t^2`,
which keeps the model inside `ℚ`. -/
def rmsSq (a : Chunk) : ℚ :=
  ((a.map fun x => x * x).sum) / a.length

/-- The squared silence threshold: the source compares `rms < 0.001`. -/
def silenceThresholdSq : ℚ := 1 / 1000000

/-- The producer's view of shared state: the audio queue plus the stats. -/
structure ProducerState where
  audio_queue : List Chunk
  stats : Stats
  deriving Repr, DecidableEq

/-- One iteration of `Pipeline._audio_producer` after the sleep: `audio` is
the value returned by `self._capture.get_audio_chunk(clear=True)` and `cap`
the audio queue's maxsize (20 in the source).  Silent or empty chunks are
skipped before the captured counter is touched; otherwise the chunk is
enqueued drop-oldest, counting a drop on eviction. -/
def audioProducerStep (cap : ℕ) (st : ProducerState) (audio : Option Chunk) :
    ProducerState :=
  match audio with
  | none => st
  | some a =>
    if a.length = 0 then st
    else if rmsSq a < silenceThresholdSq then st
    else
      let stats := {st.stats with chunks_captured := st.stats.chunks_captured + 1}
      match producerEnqueue cap (st.audio_queue, stats.chunks_dropped) a with
      | (q, d) => ⟨q, {stats with chunks_dropped := d}⟩

/-!
## Whisper engine (src/transcription/whisper_engine.py)
-/

/-!
Python string primitives, embedded structurally over the character list so
that every definition reduces in the kernel (`String.trim` and friends in
this toolchain are defined by well-founded recursion and do not).
-/

/-- Python `str.strip()`: remove leading and trailing whitespace. -/
def pyStrip (s : String) : String :=
  ⟨((s.data.dropWhile Char.isWhitespace).reverse.dropWhile
      Char.isWhitespace).reverse⟩

/-- Python `str.startswith(p)`. -/
def pyStartsWith (s p : String) : Bool :=
  p.data.isPrefixOf s.data

/-- Python `str.endswith(p)`. -/
def pyEndsWith (s p : String) : Bool :=
  p.data.reverse.isPrefixOf s.data.reverse

/-- Python `str.lower()` (ASCII fold, like `Char.toLower`; the case fold is
only consulted for preamble detection, which no claim depends on). -/
def pyLower (s : String) : String :=
  ⟨s.data.map Char.toLower⟩

/-- Python slicing `s[n:]` (by characters). -/
def pyDrop (s : String) (n : ℕ) : String :=
  ⟨s.data.drop n⟩

/-- Python slicing `s[:-n]` (by characters). -/
def pyDropRight (s : String) (n : ℕ) : String :=
  ⟨s.data.take (s.data.length - n)⟩

/-- A raw segment as yielded by the faster-whisper model generator
(`seg.text`, `seg.start`, `seg.end`; `end` is a Lean keyword). -/
structure RawSegment where
  text : String
  start : ℚ
  end_ : ℚ
  deriving Repr, DecidableEq

/-- The `info` object returned by `self._model.transcribe`. -/
structure WhisperInfo where
  language : String
  language_probability : ℚ
  deriving Repr, DecidableEq

/-- Largest absolute sample value, `np.max(np.abs(audio))` (0 for the empty
chunk, which the caller has already excluded). -/
def peakAbs (a : Chunk) : ℚ :=
  (a.map fun x => |x|).foldl max 0

/-- The collection loop of `WhisperEngine.transcribe` (lines 146-161): raw
segments with empty stripped text are skipped; each kept segment carries the
detected language and confidence of the whole chunk, and `elapsedAt i` is
the wall clock observed when the `i`-th kept segment was collected. -/
def collectResults (info : WhisperInfo) (elapsedAt : ℕ → ℚ)
    (raws : List RawSegment) : List TranscriptSegment :=
  ((raws.filter fun seg => pyStrip seg.text != "").enum).map fun p =>
    { text := pyStrip p.2.text,
      language := info.language,
      language_confidence := info.language_probability,
      start_time := p.2.start,
      end_time := p.2.end_,
      transcription_time := elapsedAt p.1 }

/-- `WhisperEngine.transcribe` (lines 94-173).  `model` is the underlying
`self._model.transcribe` call; the returned flag records whether it was
invoked.  The float32 cast is the identity here; normalization divides by
the peak when it exceeds 1; the near-silence guard compares the (squared)
rms of the normalized audio against the (squared) 0.001 threshold. -/
def whisperTranscribe (model : Chunk → List RawSegment × WhisperInfo)
    (elapsedAt : ℕ → ℚ) (audio : Option Chunk) :
    List TranscriptSegment × Bool :=
  match audio with
  | none => ([], false)
  | some audio =>
    if audio.length = 0 then ([], false)
    else
      let peak := peakAbs audio
      let audio := if 1 < peak then audio.map fun x => x / peak else audio
      if rmsSq audio < silenceThresholdSq then ([], false)
      else
        match model audio with
        | (raws, info) => (collectResults info elapsedAt raws, true)

/-!
## Whisper worker (pipeline.py lines 205-231)
-/

/-- The whisper worker's view of shared state. -/
structure WhisperWorkerState where
  transcript_queue : List TranscriptSegment
  stats : Stats
  deriving Repr, DecidableEq

/-- Processing of one dequeued chunk's transcription result (lines 216-231):
bump `chunks_transcribed`, attribute the whole chunk's time to the first
segment, then push each segment drop-oldest onto the transcript queue.
Unlike the audio producer, the `except queue.Full` arm here does NOT
increment `chunks_dropped`. -/
def whisperWorkerChunk (cap : ℕ) (st : WhisperWorkerState)
    (segs : List TranscriptSegment) : WhisperWorkerState :=
  let stats := {st.stats with
    chunks_transcribed := st.stats.chunks_transcribed + 1,
    total_whisper_time := st.stats.total_whisper_time +
      (match segs with | [] => 0 | s :: _ => s.transcription_time)}
  let q := segs.foldl (fun q seg => (dropOldestPush cap q seg).1) st.transcript_queue
  ⟨q, stats⟩

/-- The `_whisper_worker` loop over a sequence of dequeued chunks.
`transcribe` is `self._whisper.transcribe`; only the queue `get` is inside a
`try`, so an exception from `transcribe` propagates and ends the loop (the
`.error` return), terminating the worker thread. -/
def whisperWorkerRun (transcribe : Chunk → Except ε (List TranscriptSegment))
    (cap : ℕ) (st : WhisperWorkerState) :
    List Chunk → Except ε WhisperWorkerState
  | [] => .ok st
  | c :: cs =>
    match transcribe c with
    | .error e => .error e
    | .ok segs => whisperWorkerRun transcribe cap (whisperWorkerChunk cap st segs) cs

/-!
## Ollama engine (src/translation/ollama_engine.py)
-/

/-- The apostrophe character, kept out of string literals. -/
def apos : String := String.singleton (Char.ofNat 39)

/-- Direction selection of `OllamaEngine.translate` (lines 145-153): the two
recognized source tags and their targets; anything else is unknown. -/
def directionTarget (source_language : String) : Option String :=
  if source_language = "ru" then some "en"
  else if source_language = "en" then some "ru"
  else none

/-- The preamble list of `OllamaEngine._clean_output` (lines 220-226). -/
def preambles : List String :=
  ["Here is the translation:",
   "Translation:",
   "Here" ++ apos ++ "s the translation:",
   "Перевод:",
   "Вот перевод:"]

/-- `OllamaEngine._clean_output` (lines 211-231): strip a wrapping pair of
double or single quotes, drop any known preamble (the source compares
case-folded strings; `String.toLower` folds ASCII only, a no-op for the
claims proved here), and strip whitespace. -/
def cleanOutput (text : String) : String :=
  let dq : String := String.singleton (Char.ofNat 34)
  let text := if pyStartsWith text dq && pyEndsWith text dq then
    pyDropRight (pyDrop text 1) 1 else text
  let text := if pyStartsWith text apos && pyEndsWith text apos then
    pyDropRight (pyDrop text 1) 1 else text
  let text := preambles.foldl
    (fun t p => if pyStartsWith (pyLower t) (pyLower p) then
      pyStrip (pyDrop t p.length) else t)
    text
  pyStrip text

/-- The model name the source defaults to. -/
def defaultModel : String := "qwen2.5:7b-instruct-q4_K_M"

/-- `OllamaEngine.translate` (lines 124-209).  `http` is the outcome of the
POST to `/api/chat`: `some content` for a response whose
`message.content` is `content`; `none` when the request raised (`Timeout`,
`ConnectionError` or anything else — all are caught and become `None`).
`elapsed` is the wall-clock duration of the request.  The second component
of the result records whether a request was issued at all. -/
def ollamaTranslate (http : Option String) (elapsed : ℚ) (model : String)
    (text : String) (source_language : String) :
    Option TranslationResult × Bool :=
  if pyStrip text = "" then (none, false)
  else
    let text := pyStrip text
    match directionTarget source_language with
    | none => (none, false)
    | some target_language =>
      match http with
      | none => (none, true)
      | some content =>
        (some { source_text := text,
                translated_text := cleanOutput (pyStrip content),
                source_language := source_language,
                target_language := target_language,
                translation_time := elapsed,
                model := model }, true)

/-!
## Ollama worker (pipeline.py lines 233-257)
-/

/-- The translation worker's view of shared state: the stats plus the list
of items delivered to the sink (`self._on_result`), in delivery order. -/
structure OllamaWorkerState where
  stats : Stats
  delivered : List PipelineItem
  deriving Repr, DecidableEq

/-- Processing of one dequeued transcript segment (lines 244-257): translate
it, bump `chunks_translated`, accumulate translation time when a result came
back, build the `PipelineItem` and deliver it to the sink.  `http` maps the
segment's (text, language) to the request outcome; `now` is the wall clock
used for the item timestamp. -/
def ollamaWorkerSeg (http : String → String → Option String) (elapsed : ℚ)
    (model : String) (now : ℚ) (st : OllamaWorkerState)
    (seg : TranscriptSegment) : OllamaWorkerState :=
  let result := (ollamaTranslate (http seg.text seg.language) elapsed model
    seg.text seg.language).1
  let stats := {st.stats with
    chunks_translated := st.stats.chunks_translated + 1,
    total_translate_time := st.stats.total_translate_time +
      (match result with | some r => r.translation_time | none => 0)}
  ⟨stats, st.delivered ++
    [{ transcript := seg, translation := result, timestamp := now }]⟩

/-- The `_ollama_worker` loop over a sequence of dequeued segments. -/
def ollamaWorkerRun (http : String → String → Option String) (elapsed : ℚ)
    (model : String) (now : ℚ) (st : OllamaWorkerState)
    (segs : List TranscriptSegment) : OllamaWorkerState :=
  segs.foldl (ollamaWorkerSeg http elapsed model now) st

/-!
## Statistics report (pipeline.py lines 279-301)
-/

/-- The coverage ratio of `Pipeline._print_stats` (lines 298-300):
`chunks_transcribed / chunks_captured` when anything was captured, else 0.
(The source multiplies this ratio by 100 to print a percentage.) -/
def coverageRatio (s : Stats) : ℚ :=
  if 0 < s.chunks_captured then (s.chunks_transcribed : ℚ) / s.chunks_captured
  else 0

/-!
## Pipeline lifecycle (pipeline.py lines 56-168)
-/

/-- Pipeline object state visible to `start`/`stop`: the running flag, the
worker-thread list (its length), both queues, the stats, and which
collaborators have been constructed / started. -/
structure PipelineState where
  running : Bool
  threads : ℕ
  audio_queue : List Chunk
  transcript_queue : List TranscriptSegment
  stats : Stats
  whisper : Bool
  ollama : Bool
  capture : Bool
  capturing : Bool
  deriving Repr, DecidableEq

/-- The state produced by `Pipeline.__init__`. -/
def PipelineState.mkInit : PipelineState :=
  ⟨false, 0, [], [], Stats.init, false, false, false, false⟩

/-- Outcomes of the fallible steps of `Pipeline.start` (lines 98-145).
`whisper_init` is `WhisperEngine()` (model load), `capture_init` is
`AudioCapture()` (PyAudio construction), `capture_start` is
`self._capture.start()` (device resolution; raises `RuntimeError` when no
loopback device exists), and `warm_up_http` is the request outcome of the
warm-up translation.  `OllamaEngine()` has no field: its
`_verify_connection` catches every exception itself, so the constructor
never propagates connectivity failures. -/
structure StartEnv where
  whisper_init : Except String Unit
  capture_init : Except String Unit
  warm_up_http : Option String
  capture_start : Except String Unit
  deriving Repr

/-- `Pipeline.start` (lines 98-145).  Returns the updated object state and
the propagated exception, if any.  Field assignments happen in source
order, so a failure later in the sequence leaves earlier assignments in
place; `self._running = True` and the thread launches happen last.  The
warm-up (`self._ollama.warm_up()`, ollama_engine.py lines 233-245) calls
`translate`, which catches every request failure, so its outcome is printed
and discarded — it cannot propagate. -/
def pipelineStart (env : StartEnv) (st : PipelineState) :
    PipelineState × Option String :=
  if st.running then (st, none)
  else
    match env.whisper_init with
    | .error e => (st, some e)
    | .ok _ =>
      let st := {st with whisper := true, ollama := true}
      match env.capture_init with
      | .error e => (st, some e)
      | .ok _ =>
        let st := {st with capture := true}
        let _warm := ollamaTranslate env.warm_up_http 0 defaultModel
          "Здравствуйте" "ru"
        match env.capture_start with
        | .error e => (st, some e)
        | .ok _ =>
          ({st with capturing := true, running := true, threads := 3}, none)

/-- `Pipeline.stop` (lines 147-168): a no-op unless running; otherwise clear
the running flag, stop the capture device, drain both queues, join and
forget the worker threads. -/
def pipelineStop (st : PipelineState) : PipelineState :=
  if st.running then
    {st with running := false, capturing := false,
             audio_queue := [], transcript_queue := [], threads := 0}
  else st

/-!
## Concrete instances used by counterexamples and witnesses
-/

/-- The result of a successful sample RU-to-EN call, for the C9 witness. -/
def sampleResult : TranslationResult :=
  { source_text := "Привет", translated_text := "Hello",
    source_language := "ru", target_language := "en",
    translation_time := 1, model := defaultModel }

/-- A concrete Russian transcript segment. -/
def segPrivet : TranscriptSegment :=
  { text := "Привет", language := "ru", language_confidence := 1,
    start_time := 0, end_time := 1, transcription_time := 1 }

/-- A translation endpoint that is down: every request raises. -/
def httpDown : String → String → Option String := fun _ _ => none

/-- The translation worker's initial state. -/
def owInit : OllamaWorkerState := ⟨Stats.init, []⟩

/-- A recognition engine whose `transcribe` raises on every chunk. -/
def badTranscribe : Chunk → Except Unit (List TranscriptSegment) :=
  fun _ => .error ()

/-- The whisper worker's initial state. -/
def wwInit : WhisperWorkerState := ⟨[], Stats.init⟩

/-- Concrete transcript segments for the C4 counterexample. -/
def segA : TranscriptSegment :=
  { text := "a", language := "en", language_confidence := 1,
    start_time := 0, end_time := 1, transcription_time := 1 }

def segB : TranscriptSegment :=
  { text := "b", language := "en", language_confidence := 1,
    start_time := 0, end_time := 1, transcription_time := 1 }

def segC : TranscriptSegment :=
  { text := "c", language := "en", language_confidence := 1,
    start_time := 0, end_time := 1, transcription_time := 1 }

/-- A whisper-worker state whose transcript queue is at capacity 2. -/
def wwFull : WhisperWorkerState := ⟨[segA, segB], Stats.init⟩

/-- A start environment where every construction step succeeds but the
translation service is unreachable at the warm-up call. -/
def envWarmUpDown : StartEnv := ⟨.ok (), .ok (), none, .ok ()⟩

/-- A start environment whose recognition-engine construction fails. -/
def envWhisperFail : StartEnv := ⟨.error "no model", .ok (), some "ok", .ok ()⟩

/-- A pipeline state with the running flag set. -/
def psRunning : PipelineState := {PipelineState.mkInit with running := true}

/-- A stats value with more transcriptions than captures. -/
def statsOver : Stats := ⟨1, 2, 0, 0, 0, 0⟩

/-- A stats value respecting the captured-bound invariant. -/
def statsPartial : Stats := ⟨4, 3, 0, 0, 0, 0⟩

/-!
## Helper lemmas
-/

theorem dropOldestPush_not_full {cap : ℕ} {q : List α} (x : α)
    (h : cap = 0 ∨ q.length < cap) :
    dropOldestPush cap q x = (q ++ [x], false) := by
  simp [dropOldestPush, h]

theorem dropOldestPush_full {cap : ℕ} {y : α} {q : List α} (x : α)
    (h : ¬ (cap = 0 ∨ (y :: q).length < cap)) :
    dropOldestPush cap (y :: q) x = (q ++ [x], true) := by
  simp only [dropOldestPush, if_neg h]

/-- Invariant lemma behind the drop-oldest spec: starting from any state whose
queue is within capacity, a run of producer enqueues keeps, in order, the
most recent `cap` elements of (initial queue ++ pushed items) and counts one
drop per element beyond capacity. -/
theorem producerEnqueueAll_spec (cap : ℕ) (hcap : 1 ≤ cap) :
    ∀ (xs : List α) (q : List α) (d : ℕ), q.length ≤ cap →
      producerEnqueueAll cap (q, d) xs =
        ((q ++ xs).drop (q.length + xs.length - cap),
         d + (q.length + xs.length - cap)) := by
  intro xs
  induction xs with
  | nil =>
    intro q d hq
    have h0 : q.length - cap = 0 := by omega
    simp [producerEnqueueAll, h0]
  | cons x xs ih =>
    intro q d hq
    by_cases hfull : q.length < cap
    · have hstep : producerEnqueue cap (q, d) x = (q ++ [x], d) := by
        simp [producerEnqueue, dropOldestPush_not_full x (Or.inr hfull)]
      have hlen : (q ++ [x]).length ≤ cap := by
        simp; omega
      have := ih (q ++ [x]) d hlen
      simp only [producerEnqueueAll, List.foldl_cons] at *
      rw [hstep, this]
      have h1 : (q ++ [x]).length + xs.length - cap
          = q.length + (x :: xs).length - cap := by
        simp
        omega
      have h2 : q ++ [x] ++ xs = q ++ x :: xs := by simp
      rw [h1, h2]
    · -- queue is at capacity: cap ≤ q.length ≤ cap, so q is nonempty
      have hlen : q.length = cap := by omega
      obtain ⟨y, rest, rfl⟩ : ∃ y rest, q = y :: rest := by
        cases q with
        | nil => simp at hlen; omega
        | cons y rest => exact ⟨y, rest, rfl⟩
      have hnf : ¬ (cap = 0 ∨ (y :: rest).length < cap) := by
        push_neg
        omega
      have hstep : producerEnqueue cap (y :: rest, d) x = (rest ++ [x], d + 1) := by
        simp [producerEnqueue, dropOldestPush_full x hnf]
      have hlen2 : (rest ++ [x]).length ≤ cap := by
        simp at hlen ⊢
        omega
      have := ih (rest ++ [x]) (d + 1) hlen2
      simp only [producerEnqueueAll, List.foldl_cons] at *
      rw [hstep, this]
      have hr : rest.length + 1 = cap := by simpa using hlen
      have hidxL : (rest ++ [x]).length + xs.length - cap = xs.length := by
        simp
        omega
      have hidxR : (y :: rest).length + (x :: xs).length - cap = xs.length + 1 := by
        simp
        omega
      rw [hidxL, hidxR]
      simp only [Prod.mk.injEq]
      refine ⟨?_, by omega⟩
      rw [show (y :: rest) ++ x :: xs = y :: (rest ++ x :: xs) by simp,
          List.drop_succ_cons]
      simp [List.append_assoc]

/-!
## Claim theorems
-/

/-- Claim C1: for every sequence of N non-concurrent pushes onto a bounded
queue of capacity C (the producer's `put_nowait` / on-`Full`
`get_nowait`-then-`put_nowait` sequence), the queue afterwards holds
exactly min(N, C) items, those are the C most-recently-pushed items in
their original relative order (the suffix `xs.drop (N - C)`), the recorded
drop counter equals max(0, N - C), and the newest item is always
admitted (the push never blocks: it is a total function). -/
theorem bounded_queue_drop_oldest_run {α : Type} (cap : ℕ) (hcap : 1 ≤ cap)
    (xs : List α) :
    (producerEnqueueAll cap (([] : List α), 0) xs).1 = xs.drop (xs.length - cap) ∧
    (producerEnqueueAll cap (([] : List α), 0) xs).1.length = min xs.length cap ∧
    ((producerEnqueueAll cap (([] : List α), 0) xs).2 : ℤ)
      = max 0 ((xs.length : ℤ) - cap) ∧
    (xs ≠ [] → (producerEnqueueAll cap (([] : List α), 0) xs).1.getLast?
      = xs.getLast?) := by
  have hspec := producerEnqueueAll_spec cap hcap xs ([] : List α) 0 (by simp)
  simp only [List.nil_append, List.length_nil, Nat.zero_add] at hspec
  rw [hspec]
  refine ⟨rfl, ?_, ?_, ?_⟩
  · rw [List.length_drop]
    omega
  · push_cast
    omega
  · intro hne
    have hlen : 0 < xs.length := List.length_pos.mpr hne
    have hdrop : xs.drop (xs.length - cap) ≠ [] := by
      apply List.length_pos.mp
      rw [List.length_drop]
      omega
    conv_rhs => rw [← List.take_append_drop (xs.length - cap) xs]
    rw [List.getLast?_append_of_ne_nil _ hdrop]

/-- Witness for C1 at capacity 2 and three pushes. -/
theorem bounded_queue_drop_oldest_run_witness :
    (1 ≤ 2 ∧ ([5, 6, 7] : List ℕ) ≠ []) ∧
    ((producerEnqueueAll 2 (([] : List ℕ), 0) [5, 6, 7]).1
        = [5, 6, 7].drop ([5, 6, 7].length - 2) ∧
      (producerEnqueueAll 2 (([] : List ℕ), 0) [5, 6, 7]).1.length
        = min [5, 6, 7].length 2 ∧
      ((producerEnqueueAll 2 (([] : List ℕ), 0) [5, 6, 7]).2 : ℤ)
        = max 0 (([5, 6, 7].length : ℤ) - 2) ∧
      (([5, 6, 7] : List ℕ) ≠ [] →
        (producerEnqueueAll 2 (([] : List ℕ), 0) [5, 6, 7]).1.getLast?
          = [5, 6, 7].getLast?)) :=
  ⟨⟨by decide, by decide⟩, bounded_queue_drop_oldest_run 2 (by decide) [5, 6, 7]⟩

/-- Claim C7: a chunk whose root-mean-square energy is below the silence
threshold is discarded by the producer without enqueuing: the whole
producer state — audio queue, captured counter, every stat — is unchanged
by that iteration. -/
theorem silence_skipped_by_producer (cap : ℕ) (st : ProducerState) (a : Chunk)
    (hs : rmsSq a < silenceThresholdSq) :
    audioProducerStep cap st (some a) = st := by
  unfold audioProducerStep
  by_cases h0 : a.length = 0
  · simp [h0]
  · simp [h0, hs]

/-- Witness for C7 on the one-sample zero chunk. -/
theorem silence_skipped_by_producer_witness :
    rmsSq [(0 : ℚ)] < silenceThresholdSq ∧
    audioProducerStep 20 ⟨[], Stats.init⟩ (some [(0 : ℚ)]) = ⟨[], Stats.init⟩ :=
  ⟨by norm_num [rmsSq, silenceThresholdSq],
   silence_skipped_by_producer 20 ⟨[], Stats.init⟩ [(0 : ℚ)]
     (by norm_num [rmsSq, silenceThresholdSq])⟩

theorem sum_map_mul_right (l : List ℚ) (f : ℚ → ℚ) (b : ℚ) :
    (l.map fun x => f x * b).sum = (l.map f).sum * b := by
  induction l with
  | nil => simp
  | cons x xs ih => simp [ih, add_mul]

theorem rmsSq_nonneg (a : Chunk) : 0 ≤ rmsSq a := by
  unfold rmsSq
  apply div_nonneg
  · apply List.sum_nonneg
    intro x hx
    simp only [List.mem_map] at hx
    obtain ⟨y, _, rfl⟩ := hx
    exact mul_self_nonneg y
  · exact_mod_cast Nat.zero_le _

/-- Normalizing a chunk by a factor divides its squared rms by the square of
the factor (with ℚ's division-by-zero convention, the identity holds for
every factor). -/
theorem rmsSq_map_div (a : Chunk) (p : ℚ) :
    rmsSq (a.map fun x => x / p) = rmsSq a / (p * p) := by
  unfold rmsSq
  rw [List.map_map, List.length_map]
  have h1 : ((fun x => x * x) ∘ fun x : ℚ => x / p)
      = fun x : ℚ => (x * x) * (p * p)⁻¹ := by
    funext x
    simp only [Function.comp, div_eq_mul_inv, mul_inv]
    ring
  rw [h1, sum_map_mul_right]
  ring

/-- Claim C10: `WhisperEngine.transcribe` returns the empty list without
invoking the underlying model whenever the audio is `None`, of zero length,
or has root-mean-square energy below 0.001 (squared-rms comparison; the
guard in the source runs after peak normalization, which can only lower the
rms, so input rms below the threshold suffices). -/
theorem transcribe_early_return (model : Chunk → List RawSegment × WhisperInfo)
    (elapsedAt : ℕ → ℚ) :
    whisperTranscribe model elapsedAt none = ([], false) ∧
    whisperTranscribe model elapsedAt (some []) = ([], false) ∧
    (∀ a : Chunk, rmsSq a < silenceThresholdSq →
      whisperTranscribe model elapsedAt (some a) = ([], false)) := by
  refine ⟨rfl, rfl, ?_⟩
  intro a ha
  by_cases h0 : a.length = 0
  · simp [whisperTranscribe, h0]
  · have hnorm : rmsSq (if 1 < peakAbs a then a.map fun x => x / peakAbs a else a)
        < silenceThresholdSq := by
      by_cases hp : 1 < peakAbs a
      · rw [if_pos hp, rmsSq_map_div]
        calc rmsSq a / (peakAbs a * peakAbs a) ≤ rmsSq a :=
              div_le_self (rmsSq_nonneg a) (by nlinarith)
          _ < silenceThresholdSq := ha
      · rw [if_neg hp]
        exact ha
    simp [whisperTranscribe, h0, hnorm]

/-- Witness for C10 on a quiet nonempty chunk. -/
theorem transcribe_early_return_witness :
    rmsSq [(1 : ℚ)/2000] < silenceThresholdSq ∧
    whisperTranscribe (fun _ => ([], ⟨"en", 1⟩)) (fun _ => 0)
      (some [(1 : ℚ)/2000]) = ([], false) :=
  ⟨by norm_num [rmsSq, silenceThresholdSq],
   (transcribe_early_return (fun _ => ([], ⟨"en", 1⟩)) (fun _ => 0)).2.2
     [(1 : ℚ)/2000] (by norm_num [rmsSq, silenceThresholdSq])⟩

/-- Claim C9: `OllamaEngine.translate` returns `None` for empty or
whitespace-only text, regardless of the source language tag and without
issuing a request; and on success the result's `source_text` is the
stripped input, its `source_language` the given tag, and its
`target_language` the opposite of the two supported tags. -/
theorem translate_empty_none_and_success_fields (http : Option String)
    (elapsed : ℚ) (model text source_language : String) :
    (pyStrip text = "" →
      ollamaTranslate http elapsed model text source_language = (none, false)) ∧
    (∀ r : TranslationResult,
      (ollamaTranslate http elapsed model text source_language).1 = some r →
      r.source_text = pyStrip text ∧ r.source_language = source_language ∧
      ((source_language = "ru" ∧ r.target_language = "en") ∨
       (source_language = "en" ∧ r.target_language = "ru"))) := by
  constructor
  · intro h
    simp [ollamaTranslate, h]
  · intro r hr
    unfold ollamaTranslate directionTarget at hr
    by_cases he : pyStrip text = "" <;>
      by_cases hru : source_language = "ru" <;>
        by_cases hen : source_language = "en" <;>
          cases http <;>
            simp_all <;>
              (subst hr; exact ⟨rfl, rfl, rfl⟩)

/-- Witness for C9: whitespace-only input with a healthy endpoint, and a
successful Russian-to-English call. -/
theorem translate_empty_none_and_success_fields_witness :
    (pyStrip "  " = "" ∧
      ollamaTranslate (some "Hi") 1 defaultModel "  " "ru" = (none, false)) ∧
    ((ollamaTranslate (some "Hello") 1 defaultModel " Привет " "ru").1
        = some sampleResult ∧
      sampleResult.source_text = pyStrip " Привет " ∧
      sampleResult.source_language = "ru" ∧
      (("ru" = "ru" ∧ sampleResult.target_language = "en") ∨
        ("ru" = "en" ∧ sampleResult.target_language = "ru"))) :=
  ⟨⟨by decide,
    (translate_empty_none_and_success_fields (some "Hi") 1 defaultModel
      "  " "ru").1 (by decide)⟩,
   ⟨by decide,
    (translate_empty_none_and_success_fields (some "Hello") 1 defaultModel
      " Привет " "ru").2 sampleResult (by decide)⟩⟩

/-- Sink delivery appends exactly one item per processed segment. -/
theorem ollamaWorkerSeg_delivered_length (http : String → String → Option String)
    (elapsed now : ℚ) (model : String) (st : OllamaWorkerState)
    (seg : TranscriptSegment) :
    (ollamaWorkerSeg http elapsed model now st seg).delivered.length
      = st.delivered.length + 1 := by
  simp [ollamaWorkerSeg]

/-- Claim C3: every delivered `PipelineItem` carries the popped
`TranscriptSegment` itself, its `TranslationResult` is absent iff the
translation request failed or the segment's language tag is neither "ru"
nor "en", and the worker keeps delivering one item per segment regardless
(failure never drops the transcript).  The hypothesis that the segment's
stripped text is nonempty holds for every segment the whisper worker
enqueues (`collectResults` keeps only such segments). -/
theorem pipeline_item_translation_absence (http : String → String → Option String)
    (elapsed now : ℚ) (model : String) (st : OllamaWorkerState)
    (seg : TranscriptSegment) (htext : pyStrip seg.text ≠ "") :
    (∃ item : PipelineItem,
      (ollamaWorkerSeg http elapsed model now st seg).delivered
          = st.delivered ++ [item] ∧
      item.transcript = seg ∧
      (item.translation = none ↔
        (http seg.text seg.language = none ∨
          (seg.language ≠ "ru" ∧ seg.language ≠ "en")))) ∧
    (∀ segs : List TranscriptSegment,
      (ollamaWorkerRun http elapsed model now st segs).delivered.length
        = st.delivered.length + segs.length) := by
  constructor
  · refine ⟨{ transcript := seg,
              translation := (ollamaTranslate (http seg.text seg.language)
                elapsed model seg.text seg.language).1,
              timestamp := now }, ?_, rfl, ?_⟩
    · simp [ollamaWorkerSeg]
    · unfold ollamaTranslate directionTarget
      by_cases hru : seg.language = "ru" <;>
        by_cases hen : seg.language = "en" <;>
          cases hh : http seg.text seg.language <;>
            simp_all [htext]
  · intro segs
    induction segs generalizing st with
    | nil => simp [ollamaWorkerRun]
    | cons s ss ih =>
      simp only [ollamaWorkerRun, List.foldl_cons] at ih ⊢
      rw [ih, ollamaWorkerSeg_delivered_length, List.length_cons]
      omega

/-- Witness for C3: a Russian segment against a downed endpoint. -/
theorem pipeline_item_translation_absence_witness :
    pyStrip segPrivet.text ≠ "" ∧
    ((∃ item : PipelineItem,
      (ollamaWorkerSeg httpDown 1 defaultModel 0 owInit segPrivet).delivered
          = owInit.delivered ++ [item] ∧
      item.transcript = segPrivet ∧
      (item.translation = none ↔
        (httpDown segPrivet.text segPrivet.language = none ∨
          (segPrivet.language ≠ "ru" ∧ segPrivet.language ≠ "en")))) ∧
    (∀ segs : List TranscriptSegment,
      (ollamaWorkerRun httpDown 1 defaultModel 0 owInit segs).delivered.length
        = owInit.delivered.length + segs.length)) :=
  ⟨by decide,
   pipeline_item_translation_absence httpDown 1 0 defaultModel owInit
     segPrivet (by decide)⟩

/-- Counterexample to C2 as stated: with a `transcribe` that raises, the
worker run over two chunks ends in the propagated exception — the loop does
not catch it, skip the chunk and continue (that would have produced an
`.ok` state with the second chunk processed). -/
theorem whisper_worker_uncaught_exception :
    whisperWorkerRun badTranscribe 20 wwInit [[1], [2]] = .error () := rfl

/-- Claim C2 amended: only the queue `get` sits inside a `try` in
`_whisper_worker`; an exception raised by `transcribe` is NOT caught — it
propagates out of the loop and terminates the recognition worker, ending
all processing of subsequent chunks. -/
theorem whisper_worker_exception_propagates {ε : Type}
    (transcribe : Chunk → Except ε (List TranscriptSegment)) (cap : ℕ)
    (st : WhisperWorkerState) (c : Chunk) (cs : List Chunk) (e : ε)
    (h : transcribe c = .error e) :
    whisperWorkerRun transcribe cap st (c :: cs) = .error e := by
  simp [whisperWorkerRun, h]

/-- Witness for amended C2. -/
theorem whisper_worker_exception_propagates_witness :
    badTranscribe [1] = .error () ∧
    whisperWorkerRun badTranscribe 20 wwInit [[1]] = .error () :=
  ⟨rfl, whisper_worker_exception_propagates badTranscribe 20 wwInit [1] [] () rfl⟩

/-- Counterexample to C4 as stated: pushing a segment onto the full
transcript queue evicts the oldest segment, yet the shared dropped counter
stays 0 — the whisper worker, unlike the audio producer, never increments
`chunks_dropped`. -/
theorem transcript_queue_eviction_not_counted :
    (whisperWorkerChunk 2 wwFull [segC]).transcript_queue = [segB, segC] ∧
    (whisperWorkerChunk 2 wwFull [segC]).stats.chunks_dropped = 0 := by
  constructor
  · rfl
  · rfl

/-- Claim C4 amended: eviction on the transcript queue removes the oldest
segment and admits the new one, but `chunks_dropped` is left untouched by
the whisper worker — the chunks-dropped statistic counts audio-queue
evictions only. -/
theorem transcript_queue_eviction_uncounted (cap : ℕ) (st : WhisperWorkerState)
    (segs : List TranscriptSegment) :
    (whisperWorkerChunk cap st segs).stats.chunks_dropped
      = st.stats.chunks_dropped ∧
    (∀ (q : List TranscriptSegment) (seg : TranscriptSegment),
      1 ≤ cap → q.length = cap →
      dropOldestPush cap q seg = (q.drop 1 ++ [seg], true)) := by
  constructor
  · rfl
  · intro q seg h1 hlen
    cases q with
    | nil => simp at hlen; omega
    | cons y rest =>
      rw [dropOldestPush_full seg (by push_neg; constructor <;> omega)]
      simp

/-- Witness for amended C4 at capacity 2. -/
theorem transcript_queue_eviction_uncounted_witness :
    (1 ≤ 2 ∧ ([segA, segB] : List TranscriptSegment).length = 2) ∧
    ((whisperWorkerChunk 2 wwFull [segC]).stats.chunks_dropped
        = wwFull.stats.chunks_dropped ∧
      dropOldestPush 2 [segA, segB] segC
        = (([segA, segB] : List TranscriptSegment).drop 1 ++ [segC], true)) :=
  ⟨⟨by decide, by decide⟩,
   ⟨(transcript_queue_eviction_uncounted 2 wwFull [segC]).1,
    (transcript_queue_eviction_uncounted 2 wwFull [segC]).2 [segA, segB] segC
      (by decide) (by decide)⟩⟩

/-- Counterexample to C5 as stated: with the translation service
unreachable at warm-up (and everything else healthy), `start()` does not
propagate a failure — it completes without exception and the pipeline
enters Running. -/
theorem start_succeeds_despite_warmup_failure :
    (pipelineStart envWarmUpDown PipelineState.mkInit).2 = none ∧
    (pipelineStart envWarmUpDown PipelineState.mkInit).1.running = true :=
  ⟨rfl, rfl⟩

/-- Claim C5 amended: failures constructing the recognition engine or the
capture device, or starting capture, propagate out of `start()` and the
running flag stays false; but an unreachable translation service at the
warm-up call is swallowed inside `translate`/`warm_up` and `start()`
proceeds to Running regardless of the warm-up outcome. -/
theorem start_failure_propagation (env : StartEnv) (st : PipelineState)
    (hst : st.running = false) :
    (∀ e, env.whisper_init = .error e →
      pipelineStart env st = (st, some e)) ∧
    (env.whisper_init = .ok () → ∀ e, env.capture_init = .error e →
      (pipelineStart env st).2 = some e ∧
      (pipelineStart env st).1.running = false) ∧
    (env.whisper_init = .ok () → env.capture_init = .ok () →
      ∀ e, env.capture_start = .error e →
      (pipelineStart env st).2 = some e ∧
      (pipelineStart env st).1.running = false) ∧
    (env.whisper_init = .ok () → env.capture_init = .ok () →
      env.capture_start = .ok () →
      (pipelineStart env st).2 = none ∧
      (pipelineStart env st).1.running = true) := by
  obtain ⟨wi, ci, wh, cs⟩ := env
  cases wi <;> cases ci <;> cases cs <;>
    simp_all [pipelineStart]

/-- Witness for amended C5: a failing engine construction propagates. -/
theorem start_failure_propagation_witness :
    (PipelineState.mkInit.running = false ∧
      envWhisperFail.whisper_init = .error "no model") ∧
    pipelineStart envWhisperFail PipelineState.mkInit
      = (PipelineState.mkInit, some "no model") :=
  ⟨⟨rfl, rfl⟩,
   (start_failure_propagation envWhisperFail PipelineState.mkInit rfl).1
     "no model" rfl⟩

/-- Claim C6: `start()` on a running pipeline and `stop()` on a stopped
pipeline are no-ops — the state (queues, stats, engines, thread list,
running flag) is returned unchanged and no exception is raised. -/
theorem lifecycle_noop (env : StartEnv) (st : PipelineState) :
    (st.running = true → pipelineStart env st = (st, none)) ∧
    (st.running = false → pipelineStop st = st) := by
  constructor
  · intro h
    simp [pipelineStart, h]
  · intro h
    simp [pipelineStop, h]

/-- Witness for C6 on concrete running and stopped states. -/
theorem lifecycle_noop_witness :
    (psRunning.running = true ∧
      pipelineStart envWarmUpDown psRunning = (psRunning, none)) ∧
    (PipelineState.mkInit.running = false ∧
      pipelineStop PipelineState.mkInit = PipelineState.mkInit) :=
  ⟨⟨rfl, (lifecycle_noop envWarmUpDown psRunning).1 rfl⟩,
   ⟨rfl, (lifecycle_noop envWarmUpDown PipelineState.mkInit).2 rfl⟩⟩

/-- Counterexample to C8 as stated ("for all values of the captured and
transcribed counters"): with captured = 1 and transcribed = 2 the computed
coverage ratio is 2, outside [0, 1].  (The pipeline's workers never reach
such a state, but the formula itself does not clamp.) -/
theorem coverage_ratio_unbounded :
    coverageRatio statsOver = 2 ∧ ¬ coverageRatio statsOver ≤ 1 := by
  constructor
  · norm_num [coverageRatio, statsOver]
  · norm_num [coverageRatio, statsOver]

/-- Claim C8 amended: whenever the transcribed counter does not exceed the
captured counter (which holds in every state the pipeline's own workers
produce, since each transcribed chunk was first captured), the coverage
ratio lies within [0, 1], and it is 0 whenever the captured count is 0. -/
theorem coverage_ratio_bounds (s : Stats)
    (h : s.chunks_transcribed ≤ s.chunks_captured) :
    0 ≤ coverageRatio s ∧ coverageRatio s ≤ 1 ∧
    (s.chunks_captured = 0 → coverageRatio s = 0) := by
  unfold coverageRatio
  by_cases hc : 0 < s.chunks_captured
  · rw [if_pos hc]
    refine ⟨div_nonneg (by positivity) (by positivity), ?_, ?_⟩
    · rw [div_le_one (by exact_mod_cast hc)]
      exact_mod_cast h
    · intro h0
      omega
  · rw [if_neg hc]
    exact ⟨le_refl 0, by norm_num, fun _ => rfl⟩

/-- Witness for amended C8. -/
theorem coverage_ratio_bounds_witness :
    statsPartial.chunks_transcribed ≤ statsPartial.chunks_captured ∧
    (0 ≤ coverageRatio statsPartial ∧ coverageRatio statsPartial ≤ 1 ∧
      (statsPartial.chunks_captured = 0 → coverageRatio statsPartial = 0)) :=
  ⟨by decide, coverage_ratio_bounds statsPartial (by decide)⟩

end InterpreterVerifyRu
